import Mathlib

/-!
Verification development for the dataset-manager repository.

Two subsystems are embedded shallowly:
* `download_model.py` — progress-record writing (`update_progress`), the
  per-file and cumulative size monitors (`monitor_file_size`,
  `monitor_file_size_cumulative`) and the download orchestrator
  (`download_model`);
* `caption_service.py` — the model lifecycle (`ensure_model_loaded`,
  `unload_model_job`, `unload_model`) and a small interleaving semantics for
  the lock-protected interaction between a caption generation, the background
  reclamation loop and the manual unload endpoint.

Machine integers are modelled as `Nat`; Python's `int(x/y*100)` on
non-negative values is floor division, written `x * 100 / y` on `Nat`.
External effects (filesystem writes, the hub download call, the model load)
are passed in as explicit outcome values, so every definition is executable.
-/

namespace DatasetManager

/-! ## Progress records (`download_model.py`, `update_progress`) -/

/-- The JSON object written to the progress file (`update_progress`,
`download_model.py` lines 35-42). -/
structure ProgressRecord where
  downloaded : Nat
  total : Nat
  progress : Nat
  current_file : String
  speed : Nat
  eta : Nat
deriving DecidableEq, Repr

/-- The record content computed by `update_progress` (lines 34-42):
`progress = min(99, int(downloaded / total * 100) if total > 0 else 0)` and
`total = total if total > 0 else downloaded`. -/
def progressRecordOf (downloaded total : Nat) (cf : String) (speed eta : Nat) :
    ProgressRecord :=
  { downloaded := downloaded
    total := if 0 < total then total else downloaded
    progress := min 99 (if 0 < total then downloaded * 100 / total else 0)
    current_file := cf
    speed := speed
    eta := eta }

/-- Outcome of the filesystem write-then-rename performed by
`update_progress` (lines 45-48); `fail` stands for any exception raised while
opening, writing or renaming the progress file. -/
inductive WriteOutcome where
  | ok
  | fail (msg : String)
deriving DecidableEq, Repr

/-- The body of `update_progress`'s `try:` block (lines 33-55): compute the
record and attempt the atomic write; an exception becomes `Except.error`. -/
def update_progress_body (downloaded total : Nat) (cf : String)
    (speed eta : Nat) (w : WriteOutcome) : Except String ProgressRecord :=
  let record := progressRecordOf downloaded total cf speed eta
  match w with
  | .ok => .ok record
  | .fail m => .error m

/-- Embedding of `update_progress` (lines 28-59).  Returns `.ok none` when `progress_file`
is falsy (early return, line 30-31) or when the write failed and the
exception was caught by the `except` handler (lines 57-59); returns
`.ok (some r)` when the record `r` was written.  An uncaught exception would
be `.error`, which the definition never produces — that is exactly the
top-level `try/except`. -/
def update_progress (progress_file : Option String) (downloaded total : Nat)
    (cf : String) (speed eta : Nat) (w : WriteOutcome) :
    Except String (Option ProgressRecord) :=
  match progress_file with
  | none => .ok none
  | some _ =>
    match update_progress_body downloaded total cf speed eta w with
    | .ok r => .ok (some r)
    | .error _ => .ok none

/-! ## The size-monitoring loops (`download_model.py`) -/

/-- One iteration of a monitoring loop: the wall-clock time of the poll and
the file size observed by the filesystem search (steps 1-4 of the loop);
`obs = 0` means no candidate file was found this round. -/
structure Poll where
  now : Nat
  obs : Nat
deriving DecidableEq, Repr

/-- Loop-carried state of both monitors: `last_size` and `last_update_time`
(lines 203-205 / 64-66). -/
structure MonState where
  last_size : Nat
  last_update_time : Nat
deriving DecidableEq, Repr

/-- Embedding of `monitor_file_size` (lines 201-336): per poll, if a file was observed and
its size strictly grew since the last emission, write a record with the
observed size, the file's expected `total_size`, and derived speed/ETA
(lines 305-324); if nothing was observed, write a heartbeat record
("Initializing …", `downloaded = 0`) provided more than 2 seconds passed
since the last write (lines 325-329); otherwise write nothing.  The
stderr logging (`last_log_time`) has no effect on the progress file and is
omitted. -/
def monitor_file_size (total_size : Nat) (filename : String) (st : MonState) :
    List Poll → List ProgressRecord
  | [] => []
  | p :: ps =>
    if 0 < p.obs then
      if st.last_size < p.obs then
        let dt := p.now - st.last_update_time
        let speed := if 0 < dt then (p.obs - st.last_size) / dt else 0
        let eta := if 0 < speed then (total_size - p.obs) / speed else 0
        progressRecordOf p.obs total_size filename speed eta ::
          monitor_file_size total_size filename ⟨p.obs, p.now⟩ ps
      else
        monitor_file_size total_size filename st ps
    else
      if 2 < p.now - st.last_update_time then
        progressRecordOf 0 total_size ("Initializing " ++ filename ++ "...") 0 0 ::
          monitor_file_size total_size filename ⟨st.last_size, p.now⟩ ps
      else
        monitor_file_size total_size filename st ps

/-- Embedding of `monitor_file_size_cumulative` (lines 61-199): identical search loop, but
every record reports `bytes_before + observed` as `downloaded` and the job
total `total_size` as `total` (lines 162-181); heartbeats report
`bytes_before` (lines 183-192).  Each output is paired with the observed size
that triggered it (0 for a heartbeat). -/
def monitor_file_size_cumulative (bytes_before total_size : Nat)
    (filename : String) (file_num total_files : Nat) (st : MonState) :
    List Poll → List (Nat × ProgressRecord)
  | [] => []
  | p :: ps =>
    if 0 < p.obs then
      if st.last_size < p.obs then
        let cumulative := bytes_before + p.obs
        let dt := p.now - st.last_update_time
        let speed := if 0 < dt then (p.obs - st.last_size) / dt else 0
        let eta := if 0 < speed then (total_size - cumulative) / speed else 0
        (p.obs, progressRecordOf cumulative total_size
            (filename ++ " (" ++ toString file_num ++ "/" ++ toString total_files ++ ")")
            speed eta) ::
          monitor_file_size_cumulative bytes_before total_size filename
            file_num total_files ⟨p.obs, p.now⟩ ps
      else
        monitor_file_size_cumulative bytes_before total_size filename
          file_num total_files st ps
    else
      if 2 < p.now - st.last_update_time then
        (0, progressRecordOf bytes_before total_size
            ("Initializing " ++ filename ++ "...") 0 0) ::
          monitor_file_size_cumulative bytes_before total_size filename
            file_num total_files ⟨st.last_size, p.now⟩ ps
      else
        monitor_file_size_cumulative bytes_before total_size filename
          file_num total_files st ps

/-! ## The download orchestrator (`download_model.py`, `download_model`) -/

/-- The configuration object passed to `download_model` (lines 351-355).
`local_dir` and `token` only parametrise the external calls and are omitted. -/
structure DlConfig where
  repo_id : Option String
  files : List String
  progress_file : Option String
deriving DecidableEq, Repr

/-- A JSON object printed to stdout by `download_model`: the success result of
the per-file path (lines 453-458), of the snapshot path (lines 474-479), or
the structured failure object (lines 486-489). -/
inductive DlOutput where
  | filesOk (files : List String) (count : Nat)
  | snapshotOk (path : String)
  | jsonErr (msg : String)
deriving DecidableEq, Repr

/-- Result of one run of `download_model`: the progress records written (in
order), the filenames handed to the external `hf_hub_download` call (in
order), the JSON objects printed to stdout, and the `sys.exit` code if the
process exited. -/
structure DlRun where
  writes : List ProgressRecord
  attempted : List String
  printed : List DlOutput
  exit : Option Nat
deriving DecidableEq, Repr

/-- Intermediate result of the per-file loop: records written in order, files
handed to the external download, local paths collected in
`downloaded_files`, and the first exception raised (if any). -/
structure LoopResult where
  writes : List ProgressRecord
  attempted : List String
  downloadedFiles : List String
  err : Option String
deriving DecidableEq, Repr

/-- The per-file download loop of `download_model` (lines 412-451), already
specialised to the queried sizes: for each `(filename, expected_size)` pair it
writes a "Downloading …" record with the cumulative byte count before the
file, invokes the external download, and on success adds `expected_size` to
the cumulative count and writes a "Completed …" record.  On an exception from
the external call it re-raises (line 443), recorded in `err`; no later file is
touched. -/
def downloadLoop (dl : String → Except String String) :
    List (String × Nat) → Nat → Nat → Nat → Nat → LoopResult
  | [], _, _, _, _ => { writes := [], attempted := [], downloadedFiles := [], err := none }
  | (filename, expected_size) :: rest, cumulative, total, idx, nfiles =>
    let startRec := progressRecordOf cumulative total
      ("Downloading " ++ filename ++ " (" ++ toString (idx + 1) ++ "/" ++
        toString nfiles ++ ")...") 0 0
    match dl filename with
    | .error e =>
      { writes := [startRec], attempted := [filename], downloadedFiles := [], err := some e }
    | .ok p =>
      let cumulative' := cumulative + expected_size
      let doneRec := progressRecordOf cumulative' total ("Completed " ++ filename) 0 0
      let r := downloadLoop dl rest cumulative' total (idx + 1) nfiles
      { writes := startRec :: doneRec :: r.writes
        attempted := filename :: r.attempted
        downloadedFiles := p :: r.downloadedFiles
        err := r.err }

/-- Embedding of `download_model` (lines 347-490), parametrised by the two external
effects: `sizeOf` is `get_remote_file_size` (lines 338-345, returns 0 on any
failure) and `dl` is `hf_hub_download` / `snap` is `snapshot_download` (either
a local path or a raised exception).  Progress records are written only when a
progress file is configured (`update_progress` returns immediately otherwise).
Missing `repo_id` returns an error dict without printing or exiting
(lines 357-358); a raised download error reaches the `except` at line 484,
prints one structured failure object and exits with status 1. -/
def download_model (cfg : DlConfig) (sizeOf : String → Nat)
    (snap : Except String String) (dl : String → Except String String) : DlRun :=
  match cfg.repo_id with
  | none => { writes := [], attempted := [], printed := [], exit := none }
  | some _ =>
    let initRec := progressRecordOf 0 100 "Starting download..." 0 0
    if cfg.files.isEmpty then
      -- snapshot path (lines 460-479)
      let startRec := progressRecordOf 0 100 "Starting repository download..." 0 0
      match snap with
      | .error e =>
        { writes := if cfg.progress_file.isSome then [initRec, startRec] else []
          attempted := []
          printed := [.jsonErr e]
          exit := some 1 }
      | .ok path =>
        let doneRec := progressRecordOf 100 100 "Complete" 0 0
        { writes := if cfg.progress_file.isSome then [initRec, startRec, doneRec] else []
          attempted := []
          printed := [.snapshotOk path]
          exit := none }
    else
      -- per-file path (lines 391-458)
      let fileSizes := cfg.files.map fun f => (f, sizeOf f)
      let total := (cfg.files.map sizeOf).sum
      let r := downloadLoop dl fileSizes 0 total 0 cfg.files.length
      match r.err with
      | some e =>
        { writes := if cfg.progress_file.isSome then initRec :: r.writes else []
          attempted := r.attempted
          printed := [.jsonErr e]
          exit := some 1 }
      | none =>
        { writes := if cfg.progress_file.isSome then initRec :: r.writes else []
          attempted := r.attempted
          printed := [.filesOk r.downloadedFiles r.downloadedFiles.length]
          exit := none }

/-! ## Caption service lifecycle (`caption_service.py`) -/

/-- The idle threshold `UNLOAD_TIMEOUT = 180` seconds (line 72). -/
def UNLOAD_TIMEOUT : Nat := 180

/-- The two globals the lifecycle operations touch: `model` (the opaque
handle, a `Llama` object identified here by a number) and `last_activity`
(lines 75-76).  Times are whole seconds on `Nat`. -/
structure SvcState where
  model : Option Nat
  last_activity : Nat
deriving DecidableEq, Repr

/-- Outcome of the external `Llama(...)` construction (lines 144-174; the
two fallback strategies are one opaque load operation). -/
inductive LoadOutcome where
  | ok (handle : Nat)
  | fail (msg : String)
deriving DecidableEq, Repr

/-- Result of one `ensure_model_loaded` call: the new global state, whether
the external load operation was invoked, and the exception raised, if any. -/
structure EnsureResult where
  state : SvcState
  loadInvoked : Bool
  raised : Option String
deriving DecidableEq, Repr

/-- Embedding of `ensure_model_loaded` (lines 126-183): unconditionally sets
`last_activity = time.time()` (line 131), returns at once if the handle is
present (lines 133-134), raises `FileNotFoundError` if either weights file is
missing (lines 138-142), otherwise invokes the external load and either
installs the handle or re-raises (lines 144-183). -/
def ensure_model_loaded (s : SvcState) (now : Nat)
    (modelPathExists mmprojPathExists : Bool) (load : LoadOutcome) : EnsureResult :=
  let s := { s with last_activity := now }
  match s.model with
  | some _ => { state := s, loadInvoked := false, raised := none }
  | none =>
    if !modelPathExists then
      { state := s, loadInvoked := false, raised := some "Model file not found" }
    else if !mmprojPathExists then
      { state := s, loadInvoked := false, raised := some "Vision encoder (mmproj) not found" }
    else
      match load with
      | .ok h => { state := { s with model := some h }, loadInvoked := true, raised := none }
      | .fail e => { state := s, loadInvoked := true, raised := some e }

/-- Repeated calls to `ensure_model_loaded` at the given clock values,
threading the state; the `Bool` is true iff any call invoked the external
load operation. -/
def ensureCalls (modelPathExists mmprojPathExists : Bool) (load : LoadOutcome) :
    SvcState → List Nat → SvcState × Bool
  | s, [] => (s, false)
  | s, now :: rest =>
    let r := ensure_model_loaded s now modelPathExists mmprojPathExists load
    let tail := ensureCalls modelPathExists mmprojPathExists load r.state rest
    (tail.1, r.loadInvoked || tail.2)

/-- The JSON body returned by the `/unload` route. -/
structure UnloadResponse where
  success : Bool
  message : String
deriving DecidableEq, Repr

/-- Embedding of `unload_model`, the `/unload` handler (lines 427-439): under the model
lock, frees the handle if present, otherwise a no-op; both branches return
`success: True`. -/
def unload_model (s : SvcState) : SvcState × UnloadResponse :=
  match s.model with
  | some _ => ({ s with model := none }, { success := true, message := "Model unloaded" })
  | none => (s, { success := true, message := "Model was already unloaded" })

/-- One iteration of the reclamation loop body `unload_model_job`
(lines 106-116): under the lock, if a handle is present and
`now - last_activity > UNLOAD_TIMEOUT`, free it. -/
def unloadPoll (s : SvcState) (now : Nat) : SvcState :=
  match s.model with
  | some _ =>
    if UNLOAD_TIMEOUT < now - s.last_activity then { s with model := none } else s
  | none => s

/-- The reclamation loop run at the given sequence of wake-up times (one per
`time.sleep(10)` round), with no intervening access to the handle. -/
def unloadRun (s : SvcState) (polls : List Nat) : SvcState :=
  polls.foldl unloadPoll s

/-! ## Interleaving semantics for the lock discipline (`caption_service.py`)

Three threads contend for the single `model_lock` (line 78): a caption
generation (`generate_caption_internal`, lines 230-320, which holds the lock
from entry to return), the background reclamation loop (`unload_model_job`,
lines 102-116, whose check-and-free body runs inside `with model_lock:`), and
the manual `/unload` handler (`unload_model`, lines 427-439, likewise).  The
model below is an over-approximation of the Python control flow — each
lock-protected block is split into an acquire step, internal steps and a
release step — sufficient to settle the mutual-exclusion claim. -/

/-- Thread identifiers. -/
inductive Tid where
  | gen
  | reclaim
  | manual
deriving DecidableEq, Repr

/-- Program counter of the generation thread: `idle` before
`with model_lock:`; `acquired` once the lock is held (line 244); `worked`
after `ensure_model_loaded` returned or raised; `generated` after the
inference call refreshed `last_activity` (lines 283-285); `done` after the
lock is released. -/
inductive GenPC where
  | idle
  | acquired
  | worked
  | generated
  | done
deriving DecidableEq, Repr

/-- Program counter of the reclamation loop: `sleeping` inside
`time.sleep(10)`; `waiting` at `with model_lock:` (line 108); `acquiredR`
holding the lock, about to run the check-and-free body. -/
inductive RecPC where
  | sleeping
  | waiting
  | acquiredR
deriving DecidableEq, Repr

/-- Program counter of the manual-unload request: `idleM` before the handler,
`acquiredM` holding the lock, `doneM` after returning. -/
inductive ManPC where
  | idleM
  | acquiredM
  | doneM
deriving DecidableEq, Repr

/-- A global configuration: the lock owner, the shared globals `model` and
`last_activity`, the clock, and the three program counters. -/
structure Config where
  lock : Option Tid
  model : Option Nat
  last_activity : Nat
  now : Nat
  genPC : GenPC
  recPC : RecPC
  manPC : ManPC
deriving DecidableEq, Repr

/-- The generation thread is between acquiring `model_lock` and returning. -/
def genHolds (c : Config) : Prop :=
  c.genPC = GenPC.acquired ∨ c.genPC = GenPC.worked ∨ c.genPC = GenPC.generated

instance (c : Config) : Decidable (genHolds c) := by
  unfold genHolds; infer_instance

/-- Step labels; `tick` is the passage of time. -/
inductive Label where
  | genAcquire
  | genLoadOk
  | genLoadFail
  | genGenerate
  | genRelease
  | recWake
  | recAcquire
  | recCheck
  | manAcquire
  | manFree
  | tick
deriving DecidableEq, Repr

/-- Which thread performs a step. -/
def Label.actor : Label → Option Tid
  | .genAcquire | .genLoadOk | .genLoadFail | .genGenerate | .genRelease => some .gen
  | .recWake | .recAcquire | .recCheck => some .reclaim
  | .manAcquire | .manFree => some .manual
  | .tick => none

/-- Interleaved small-step semantics of the three operations.  Acquire steps
require the lock to be free; the reclamation check and the manual free run
in one atomic step while their thread holds the lock, as the Python blocks
do. -/
inductive Step : Config → Label → Config → Prop where
  | genAcquire (c : Config) (h1 : c.genPC = .idle) (h2 : c.lock = none) :
      Step c .genAcquire { c with lock := some .gen, genPC := .acquired }
  | genLoadOk (c : Config) (h1 : c.genPC = .acquired) :
      Step c .genLoadOk
        { c with genPC := .worked, last_activity := c.now,
                 model := some (c.model.getD 0) }
  | genLoadFail (c : Config) (h1 : c.genPC = .acquired) (h2 : c.model = none) :
      Step c .genLoadFail { c with genPC := .worked, last_activity := c.now }
  | genGenerate (c : Config) (h1 : c.genPC = .worked) :
      Step c .genGenerate { c with genPC := .generated, last_activity := c.now }
  | genRelease (c : Config) (h1 : c.genPC = .worked ∨ c.genPC = .generated) :
      Step c .genRelease { c with lock := none, genPC := .done }
  | recWake (c : Config) (h1 : c.recPC = .sleeping) :
      Step c .recWake { c with recPC := .waiting, now := c.now + 10 }
  | recAcquire (c : Config) (h1 : c.recPC = .waiting) (h2 : c.lock = none) :
      Step c .recAcquire { c with lock := some .reclaim, recPC := .acquiredR }
  | recCheck (c : Config) (h1 : c.recPC = .acquiredR) :
      Step c .recCheck
        { c with lock := none, recPC := .sleeping,
                 model := if c.model.isSome ∧ UNLOAD_TIMEOUT < c.now - c.last_activity
                          then none else c.model }
  | manAcquire (c : Config) (h1 : c.manPC = .idleM) (h2 : c.lock = none) :
      Step c .manAcquire { c with lock := some .manual, manPC := .acquiredM }
  | manFree (c : Config) (h1 : c.manPC = .acquiredM) :
      Step c .manFree { c with lock := none, manPC := .doneM, model := none }
  | tick (c : Config) :
      Step c .tick { c with now := c.now + 1 }

/-- Initial configuration: lock free, no handle, all threads at their entry
points. -/
def initConfig : Config :=
  { lock := none, model := none, last_activity := 0, now := 0,
    genPC := .idle, recPC := .sleeping, manPC := .idleM }

/-- Configurations reachable from `initConfig` by interleaved steps. -/
inductive Reachable : Config → Prop where
  | init : Reachable initConfig
  | step {c : Config} {l : Label} {c' : Config} :
      Reachable c → Step c l c' → Reachable c'

/-! ## Concrete runs used to settle claims on explicit inputs -/

/-- A two-file job: `a.bin` (100 MB) and `b.bin` (50 MB), with a progress
file configured. -/
def cfgTwoFiles : DlConfig :=
  { repo_id := some "r", files := ["a.bin", "b.bin"], progress_file := some "/tmp/p.json" }

/-- Expected sizes from the up-front size query: 100 MB and 50 MB. -/
def sizesTwoFiles : String → Nat :=
  fun f => if f = "a.bin" then 104857600 else if f = "b.bin" then 52428800 else 0

/-- An external download operation on which every file succeeds. -/
def dlAllOk : String → Except String String :=
  fun f => Except.ok ("/tmp/m/" ++ f)

/-- A three-file job used for the abort-on-error claim. -/
def cfgThreeFiles : DlConfig :=
  { repo_id := some "r", files := ["a", "b", "c"], progress_file := some "/tmp/p.json" }

/-- An external download operation that raises on file `b` only. -/
def dlFailsOnB : String → Except String String :=
  fun f => if f = "b" then Except.error "connection reset" else Except.ok ("/tmp/m/" ++ f)

/-- Lock-ownership invariant: a thread sitting inside a lock-protected block
owns the lock. -/
def lockInv (c : Config) : Prop :=
  (genHolds c → c.lock = some Tid.gen) ∧
  (c.recPC = RecPC.acquiredR → c.lock = some Tid.reclaim) ∧
  (c.manPC = ManPC.acquiredM → c.lock = some Tid.manual)

theorem lockInv_step {c : Config} {l : Label} {c' : Config}
    (ih : lockInv c) (hs : Step c l c') : lockInv c' := by
  obtain ⟨ig, ir, im⟩ := ih
  cases hs with
  | genAcquire h1 h2 =>
    exact ⟨fun _ => rfl,
      fun hR => absurd (ir hR) (by simp [h2]),
      fun hM => absurd (im hM) (by simp [h2])⟩
  | genLoadOk h1 =>
    have hg : c.lock = some Tid.gen := ig (Or.inl h1)
    exact ⟨fun _ => hg,
      fun hR => absurd (ir hR) (by simp [hg]),
      fun hM => absurd (im hM) (by simp [hg])⟩
  | genLoadFail h1 h2 =>
    have hg : c.lock = some Tid.gen := ig (Or.inl h1)
    exact ⟨fun _ => hg,
      fun hR => absurd (ir hR) (by simp [hg]),
      fun hM => absurd (im hM) (by simp [hg])⟩
  | genGenerate h1 =>
    have hg : c.lock = some Tid.gen := ig (Or.inr (Or.inl h1))
    exact ⟨fun _ => hg,
      fun hR => absurd (ir hR) (by simp [hg]),
      fun hM => absurd (im hM) (by simp [hg])⟩
  | genRelease h1 =>
    have hg : c.lock = some Tid.gen :=
      ig (h1.elim (fun h => Or.inr (Or.inl h)) (fun h => Or.inr (Or.inr h)))
    exact ⟨fun hg' => by simp [genHolds] at hg',
      fun hR => absurd (ir hR) (by simp [hg]),
      fun hM => absurd (im hM) (by simp [hg])⟩
  | recWake h1 =>
    exact ⟨fun hg => ig hg,
      fun hR => by simp at hR,
      fun hM => im hM⟩
  | recAcquire h1 h2 =>
    exact ⟨fun hg => absurd (ig hg) (by simp [h2]),
      fun _ => rfl,
      fun hM => absurd (im hM) (by simp [h2])⟩
  | recCheck h1 =>
    have hrc : c.lock = some Tid.reclaim := ir h1
    exact ⟨fun hg => absurd (ig hg) (by simp [hrc]),
      fun hR => by simp at hR,
      fun hM => absurd (im hM) (by simp [hrc])⟩
  | manAcquire h1 h2 =>
    exact ⟨fun hg => absurd (ig hg) (by simp [h2]),
      fun hR => absurd (ir hR) (by simp [h2]),
      fun _ => rfl⟩
  | manFree h1 =>
    have hm : c.lock = some Tid.manual := im h1
    exact ⟨fun hg => absurd (ig hg) (by simp [hm]),
      fun hR => absurd (ir hR) (by simp [hm]),
      fun hM => by simp at hM⟩
  | tick =>
    exact ⟨ig, ir, im⟩

theorem reachable_lockInv {c : Config} (h : Reachable c) : lockInv c := by
  induction h with
  | init => simp [lockInv, initConfig, genHolds]
  | step hr hs ih => exact lockInv_step ih hs

/-- C1: while a caption generation is between acquiring `model_lock` and
returning, no step of the reclamation loop or of the manual `/unload`
handler (nor the clock) changes the model handle — in particular it is never
set to `None` out from under the generation — because all three serialize on
the one lock. -/
theorem generation_excludes_unload {c c' : Config} {l : Label}
    (hr : Reachable c) (hs : Step c l c') (hg : genHolds c)
    (ha : l.actor ≠ some Tid.gen) : c'.model = c.model := by
  have inv := reachable_lockInv hr
  have hlock : c.lock = some Tid.gen := inv.1 hg
  cases hs with
  | genAcquire h1 h2 => exact absurd rfl ha
  | genLoadOk h1 => exact absurd rfl ha
  | genLoadFail h1 h2 => exact absurd rfl ha
  | genGenerate h1 => exact absurd rfl ha
  | genRelease h1 => exact absurd rfl ha
  | recWake h1 => rfl
  | recAcquire h1 h2 => exact absurd hlock (by simp [h2])
  | recCheck h1 =>
    have h2 := inv.2.1 h1
    rw [hlock] at h2
    exact absurd h2 (by decide)
  | manAcquire h1 h2 => exact absurd hlock (by simp [h2])
  | manFree h1 =>
    have h2 := inv.2.2 h1
    rw [hlock] at h2
    exact absurd h2 (by decide)
  | tick => rfl

/-- Witness for C1: after the generation thread acquires the lock from the
initial configuration, a reclamation-loop wake-up step leaves the handle
untouched. -/
theorem generation_excludes_unload_witness :
    ({ lock := some Tid.gen, model := none, last_activity := 0, now := 0 + 10,
       genPC := .acquired, recPC := .waiting, manPC := .idleM } : Config).model =
    ({ lock := some Tid.gen, model := none, last_activity := 0, now := 0,
       genPC := .acquired, recPC := .sleeping, manPC := .idleM } : Config).model :=
  generation_excludes_unload
    (Reachable.step Reachable.init (Step.genAcquire initConfig rfl rfl))
    (Step.recWake _ rfl) (Or.inl rfl) (by decide)

/-- A poll at a time at or before `last_activity + UNLOAD_TIMEOUT` leaves the
state untouched: the loop frees only on strict excess of the threshold. -/
theorem unloadPoll_keep (hdl t0 t : Nat) (h : t ≤ t0 + UNLOAD_TIMEOUT) :
    unloadPoll ⟨some hdl, t0⟩ t = ⟨some hdl, t0⟩ := by
  show (if UNLOAD_TIMEOUT < t - t0 then (⟨none, t0⟩ : SvcState)
      else ⟨some hdl, t0⟩) = ⟨some hdl, t0⟩
  rw [if_neg (by omega)]

/-- Once the handle is freed, later polls change nothing. -/
theorem unloadRun_none (polls : List Nat) (la : Nat) :
    unloadRun ⟨none, la⟩ polls = ⟨none, la⟩ := by
  induction polls with
  | nil => rfl
  | cons t ts ih => exact ih

/-- C4: starting from a loaded handle with activity timestamp `t0` and no
intervening access, the reclamation loop never frees the handle at any poll
time at or before `t0 + UNLOAD_TIMEOUT` (the state is untouched), and it does
free the handle (state `Unloaded`) as soon as some poll happens strictly
after `t0 + UNLOAD_TIMEOUT`. -/
theorem unload_model_job_idle_reclamation (hdl t0 : Nat) (polls : List Nat) :
    ((∀ t ∈ polls, t ≤ t0 + UNLOAD_TIMEOUT) →
      unloadRun ⟨some hdl, t0⟩ polls = ⟨some hdl, t0⟩) ∧
    ((∃ t ∈ polls, t0 + UNLOAD_TIMEOUT < t) →
      (unloadRun ⟨some hdl, t0⟩ polls).model = none) := by
  constructor
  · induction polls with
    | nil => intro _; rfl
    | cons t ts ih =>
      intro hall
      have hkeep := unloadPoll_keep hdl t0 t (hall t (List.mem_cons_self t ts))
      show List.foldl unloadPoll (unloadPoll ⟨some hdl, t0⟩ t) ts = _
      rw [hkeep]
      exact ih fun x hx => hall x (List.mem_cons_of_mem _ hx)
  · induction polls with
    | nil =>
      rintro ⟨t, ht, _⟩
      cases ht
    | cons t ts ih =>
      intro hex
      by_cases hgt : t0 + UNLOAD_TIMEOUT < t
      · have hfree : unloadPoll ⟨some hdl, t0⟩ t = ⟨none, t0⟩ := by
          show (if UNLOAD_TIMEOUT < t - t0 then (⟨none, t0⟩ : SvcState)
              else ⟨some hdl, t0⟩) = ⟨none, t0⟩
          rw [if_pos (by omega)]
        show (List.foldl unloadPoll (unloadPoll ⟨some hdl, t0⟩ t) ts).model = none
        rw [hfree]
        rw [show List.foldl unloadPoll (⟨none, t0⟩ : SvcState) ts =
          unloadRun ⟨none, t0⟩ ts from rfl, unloadRun_none]
      · have hkeep := unloadPoll_keep hdl t0 t (by omega)
        show (List.foldl unloadPoll (unloadPoll ⟨some hdl, t0⟩ t) ts).model = none
        rw [hkeep]
        apply ih
        rcases hex with ⟨x, hx, hxgt⟩
        rcases List.mem_cons.mp hx with rfl | hx'
        · exact absurd hxgt hgt
        · exact ⟨x, hx', hxgt⟩

/-- Witness for C4: with the default threshold, polls at 10 s and 181 s after
activity time 0 end with the handle freed. -/
theorem unload_model_job_idle_reclamation_witness :
    (unloadRun ⟨some 1, 0⟩ [10, 181]).model = none :=
  (unload_model_job_idle_reclamation 1 0 [10, 181]).2 ⟨181, by decide, by decide⟩

/-- Calling `ensure_model_loaded` on an already-loaded state: updates the activity
timestamp, keeps the handle, invokes no load, raises nothing. -/
theorem ensure_model_loaded_ready (hdl la now : Nat) (mex vex : Bool)
    (ld : LoadOutcome) :
    ensure_model_loaded ⟨some hdl, la⟩ now mex vex ld =
      { state := ⟨some hdl, now⟩, loadInvoked := false, raised := none } := rfl

/-- Repeated calls from a `Ready` state never invoke the load and keep the
handle. -/
theorem ensureCalls_ready (mex vex : Bool) (ld : LoadOutcome) (hdl : Nat) :
    ∀ (nows : List Nat) (la : Nat),
      (ensureCalls mex vex ld ⟨some hdl, la⟩ nows).2 = false ∧
      (ensureCalls mex vex ld ⟨some hdl, la⟩ nows).1.model = some hdl := by
  intro nows
  induction nows with
  | nil => intro la; exact ⟨rfl, rfl⟩
  | cons n ns ih =>
    intro la
    have h := ih n
    simpa [ensureCalls, ensure_model_loaded_ready] using h

/-- C5: `ensure_model_loaded` is idempotent — from a state whose handle is
already loaded, one call (and any number of repeated calls) performs no load
operation and leaves the handle object unchanged. -/
theorem ensure_loaded_idempotent (s : SvcState) (hdl : Nat) (h : s.model = some hdl)
    (mex vex : Bool) (ld : LoadOutcome) (now : Nat) (nows : List Nat) :
    (ensure_model_loaded s now mex vex ld).loadInvoked = false ∧
    (ensure_model_loaded s now mex vex ld).state.model = some hdl ∧
    (ensure_model_loaded s now mex vex ld).raised = none ∧
    (ensureCalls mex vex ld s nows).2 = false ∧
    (ensureCalls mex vex ld s nows).1.model = some hdl := by
  obtain ⟨m, la⟩ := s
  cases h
  refine ⟨?_, ?_, ?_, (ensureCalls_ready mex vex ld hdl nows la).1,
    (ensureCalls_ready mex vex ld hdl nows la).2⟩ <;>
    simp [ensure_model_loaded_ready]

/-- Witness for C5: three repeated calls on a loaded state load nothing and
keep handle 7. -/
theorem ensure_loaded_idempotent_witness :
    (ensure_model_loaded ⟨some 7, 0⟩ 5 true true (.ok 9)).loadInvoked = false ∧
    (ensureCalls true true (.ok 9) ⟨some 7, 0⟩ [1, 2, 3]).2 = false ∧
    (ensureCalls true true (.ok 9) ⟨some 7, 0⟩ [1, 2, 3]).1.model = some 7 := by
  have h := ensure_loaded_idempotent ⟨some 7, 0⟩ 7 rfl true true (.ok 9) 5 [1, 2, 3]
  exact ⟨h.1, h.2.2.2.1, h.2.2.2.2⟩

/-- C8: the `/unload` handler always reports success — it frees the handle
when one is loaded and is a success-reporting no-op otherwise. -/
theorem unload_always_success (s : SvcState) :
    (unload_model s).2.success = true ∧ (unload_model s).1.model = none ∧
    (s.model = none → (unload_model s).1 = s) := by
  obtain ⟨m, la⟩ := s
  cases m <;> simp [unload_model]

/-- Witness for C8: both a loaded and an unloaded state yield success. -/
theorem unload_always_success_witness :
    (unload_model ⟨some 5, 0⟩).2.success = true ∧
    (unload_model ⟨none, 0⟩).2.success = true ∧
    (unload_model ⟨none, 0⟩).1 = ⟨none, 0⟩ :=
  ⟨(unload_always_success ⟨some 5, 0⟩).1, (unload_always_success ⟨none, 0⟩).1,
    (unload_always_success ⟨none, 0⟩).2.2 rfl⟩

/-- C9: `update_progress` never propagates an exception — for every input,
including a zero total and a failing write or rename, it returns normally
(the body's failure is caught by its `try/except`). -/
theorem update_progress_never_raises (pf : Option String) (d t : Nat)
    (cf : String) (sp et : Nat) (w : WriteOutcome) :
    ∃ r, update_progress pf d t cf sp et w = Except.ok r := by
  cases pf <;> cases w <;> exact ⟨_, rfl⟩

/-- C10: `ensure_model_loaded` sets `last_activity` to the current time
unconditionally on entry — in every case, including missing weight files and
a failing load that leaves the handle absent, the returned state carries
`last_activity = now`. -/
theorem ensure_loaded_sets_last_activity (s : SvcState) (now : Nat)
    (mex vex : Bool) (ld : LoadOutcome) :
    (ensure_model_loaded s now mex vex ld).state.last_activity = now := by
  obtain ⟨m, la⟩ := s
  cases m <;> cases mex <;> cases vex <;> cases ld <;>
    simp [ensure_model_loaded]

/-- Every record built by `update_progress`'s computation is clamped to
percent 99 by `min(99, …)`. -/
theorem progressRecordOf_progress_le (downloaded total : Nat) (cf : String)
    (speed eta : Nat) :
    (progressRecordOf downloaded total cf speed eta).progress ≤ 99 := by
  simp [progressRecordOf]

/-- When `downloaded = total > 0`, the computed record carries
`downloaded = total` but percent `min 99 100 = 99`. -/
theorem progressRecordOf_complete (T : Nat) (hT : 0 < T) (cf : String) :
    progressRecordOf T T cf 0 0 =
      { downloaded := T, total := T, progress := 99, current_file := cf,
        speed := 0, eta := 0 } := by
  simp [progressRecordOf, hT, Nat.mul_div_cancel_left 100 hT]

theorem getLast?_cons_of_some {α : Type} (a : α) {l : List α} {x : α}
    (h : l.getLast? = some x) : (a :: l).getLast? = some x := by
  cases l with
  | nil => cases h
  | cons b m => rw [List.getLast?_cons_cons]; exact h

/-- Every record written by the per-file loop has percent at most 99. -/
theorem downloadLoop_writes_progress_le (dl : String → Except String String) :
    ∀ (fs : List (String × Nat)) (c total i n : Nat) (r : ProgressRecord),
      r ∈ (downloadLoop dl fs c total i n).writes → r.progress ≤ 99 := by
  intro fs
  induction fs with
  | nil => intro c total i n r h; cases h
  | cons p rest ih =>
    intro c total i n r h
    obtain ⟨filename, expected_size⟩ := p
    simp only [downloadLoop] at h
    cases hdl : dl filename with
    | error e =>
      rw [hdl] at h
      simp only [List.mem_singleton] at h
      subst h
      exact progressRecordOf_progress_le ..
    | ok q =>
      rw [hdl] at h
      simp only [List.mem_cons] at h
      rcases h with rfl | rfl | hmem
      · exact progressRecordOf_progress_le ..
      · exact progressRecordOf_progress_le ..
      · exact ih _ _ _ _ _ hmem

/-- When every external download succeeds, the loop raises nothing and its
final write is the "Completed" record of the last file, carrying the full
cumulative byte count. -/
theorem downloadLoop_allOk_last (dl : String → Except String String)
    (f : String) (s : Nat) :
    ∀ (fs : List (String × Nat)) (c total i n : Nat),
      (∀ p ∈ fs ++ [(f, s)], (dl p.1).isOk = true) →
      (downloadLoop dl (fs ++ [(f, s)]) c total i n).err = none ∧
      (downloadLoop dl (fs ++ [(f, s)]) c total i n).writes.getLast? =
        some (progressRecordOf (c + ((fs ++ [(f, s)]).map Prod.snd).sum) total
          ("Completed " ++ f) 0 0) := by
  intro fs
  induction fs with
  | nil =>
    intro c total i n hok
    have hf := hok (f, s) (by simp)
    cases hdl : dl f with
    | error e => rw [hdl] at hf; cases hf
    | ok q =>
      refine ⟨?_, ?_⟩ <;> simp [downloadLoop, hdl]
  | cons p rest ih =>
    intro c total i n hok
    obtain ⟨g, t⟩ := p
    have hg := hok (g, t) (by simp)
    cases hdl : dl g with
    | error e => rw [hdl] at hg; cases hg
    | ok q =>
      have hIH := ih (c + t) total (i + 1) n
        (fun p hp => hok p (List.mem_cons_of_mem _ hp))
      simp only [List.cons_append, downloadLoop, hdl]
      refine ⟨hIH.1, ?_⟩
      have h2 := getLast?_cons_of_some
        (progressRecordOf (c + t) total ("Completed " ++ g) 0 0) hIH.2
      have h1 := getLast?_cons_of_some
        (progressRecordOf c total
          ("Downloading " ++ g ++ " (" ++ toString (i + 1) ++ "/" ++
            toString n ++ ")...") 0 0) h2
      have h3 : c + t + (List.map Prod.snd (rest ++ [(f, s)])).sum =
          c + (List.map Prod.snd ((g, t) :: (rest ++ [(f, s)]))).sum := by
        simp [Nat.add_assoc]
      rw [h3] at h1
      exact h1

/-- When the external download raises on file `bad` after a prefix of
successes, the loop's error is exactly that exception and the attempted files
are the prefix followed by `bad` — nothing later is touched and nothing is
retried. -/
theorem downloadLoop_abort (dl : String → Except String String)
    (bad : String) (badsz : Nat) (e : String) (hbad : dl bad = Except.error e) :
    ∀ (pre : List (String × Nat)) (post : List (String × Nat)) (c total i n : Nat),
      (∀ p ∈ pre, (dl p.1).isOk = true) →
      (downloadLoop dl (pre ++ (bad, badsz) :: post) c total i n).err = some e ∧
      (downloadLoop dl (pre ++ (bad, badsz) :: post) c total i n).attempted =
        pre.map Prod.fst ++ [bad] := by
  intro pre
  induction pre with
  | nil =>
    intro post c total i n _
    refine ⟨?_, ?_⟩ <;> simp [downloadLoop, hbad]
  | cons p rest ih =>
    intro post c total i n hok
    obtain ⟨g, t⟩ := p
    have hg := hok (g, t) (by simp)
    cases hdl : dl g with
    | error e' => rw [hdl] at hg; cases hg
    | ok q =>
      have hIH := ih post (c + t) total (i + 1) n
        (fun p hp => hok p (List.mem_cons_of_mem _ hp))
      simp only [List.cons_append, downloadLoop, hdl]
      exact ⟨hIH.1, by simp [hIH.2]⟩

/-- Every progress record `download_model` ever writes — on any path: missing
`repo_id`, snapshot, per-file, success or failure — has percent at most 99. -/
theorem download_model_writes_progress_le (cfg : DlConfig) (sizeOf : String → Nat)
    (snap : Except String String) (dl : String → Except String String) :
    ∀ r ∈ (download_model cfg sizeOf snap dl).writes, r.progress ≤ 99 := by
  intro r hr
  cases hrid : cfg.repo_id with
  | none => simp [download_model, hrid] at hr
  | some rid =>
    simp only [download_model, hrid] at hr
    by_cases hemp : cfg.files.isEmpty
    · rw [if_pos hemp] at hr
      cases snap with
      | error e =>
        split_ifs at hr
        · simp only [List.mem_cons] at hr
          rcases hr with rfl | rfl | h
          · exact progressRecordOf_progress_le ..
          · exact progressRecordOf_progress_le ..
          · cases h
        · cases hr
      | ok p =>
        split_ifs at hr
        · simp only [List.mem_cons] at hr
          rcases hr with rfl | rfl | rfl | h
          · exact progressRecordOf_progress_le ..
          · exact progressRecordOf_progress_le ..
          · exact progressRecordOf_progress_le ..
          · cases h
        · cases hr
    · rw [if_neg hemp] at hr
      cases herr : (downloadLoop dl (cfg.files.map fun f => (f, sizeOf f)) 0
          ((cfg.files.map sizeOf).sum) 0 cfg.files.length).err with
      | some e =>
        rw [herr] at hr
        split_ifs at hr
        · simp only [List.mem_cons] at hr
          rcases hr with rfl | hmem
          · exact progressRecordOf_progress_le ..
          · exact downloadLoop_writes_progress_le dl _ _ _ _ _ r hmem
        · cases hr
      | none =>
        rw [herr] at hr
        split_ifs at hr
        · simp only [List.mem_cons] at hr
          rcases hr with rfl | hmem
          · exact progressRecordOf_progress_le ..
          · exact downloadLoop_writes_progress_le dl _ _ _ _ _ r hmem
        · cases hr

/-- C7: if the external download raises on some file of the job, the whole
job aborts at that file — the files before it were attempted once each, no
file after it is attempted and none is retried — a single structured failure
object is printed and the process exits with status 1. -/
theorem download_model_aborts_on_error (cfg : DlConfig) (sizeOf : String → Nat)
    (snap : Except String String) (dl : String → Except String String)
    (pre : List String) (bad : String) (post : List String) (e : String)
    (hrid : cfg.repo_id.isSome = true)
    (hfiles : cfg.files = pre ++ bad :: post)
    (hpre : ∀ g ∈ pre, (dl g).isOk = true)
    (hbad : dl bad = Except.error e) :
    (download_model cfg sizeOf snap dl).printed = [DlOutput.jsonErr e] ∧
    (download_model cfg sizeOf snap dl).exit = some 1 ∧
    (download_model cfg sizeOf snap dl).attempted = pre ++ [bad] := by
  obtain ⟨rid, hrid'⟩ := Option.isSome_iff_exists.mp hrid
  have hemp : cfg.files.isEmpty = false := by simp [hfiles]
  have hok' : ∀ p ∈ (pre.map fun g => (g, sizeOf g)), (dl p.1).isOk = true := by
    intro p hp
    obtain ⟨g, hg, rfl⟩ := List.mem_map.mp hp
    exact hpre g hg
  have hloop := downloadLoop_abort dl bad (sizeOf bad) e hbad
    (pre.map fun g => (g, sizeOf g)) (post.map fun g => (g, sizeOf g))
    0 ((cfg.files.map sizeOf).sum) 0 cfg.files.length hok'
  have hmap : cfg.files.map (fun g => (g, sizeOf g)) =
      (pre.map fun g => (g, sizeOf g)) ++
        (bad, sizeOf bad) :: (post.map fun g => (g, sizeOf g)) := by
    rw [hfiles]; simp
  rw [← hmap] at hloop
  refine ⟨?_, ?_, ?_⟩ <;>
    simp [download_model, hrid', hemp, hloop.1, hloop.2, List.map_map,
      Function.comp_def]

/-- Witness for C7: with files `a, b, c` where `b` raises, only `a` and `b`
are attempted, one failure object is printed, and the exit status is 1. -/
theorem download_model_aborts_on_error_witness :
    (download_model cfgThreeFiles (fun _ => 10) (Except.ok "x") dlFailsOnB).printed =
      [DlOutput.jsonErr "connection reset"] ∧
    (download_model cfgThreeFiles (fun _ => 10) (Except.ok "x") dlFailsOnB).exit = some 1 ∧
    (download_model cfgThreeFiles (fun _ => 10) (Except.ok "x") dlFailsOnB).attempted =
      ["a"] ++ ["b"] :=
  download_model_aborts_on_error cfgThreeFiles (fun _ => 10) (Except.ok "x")
    dlFailsOnB ["a"] "b" ["c"] "connection reset" (by decide) (by decide)
    (by decide) rfl

/-- C2 (amended): every Progress Record written during a download job
carries percent in 0-99; when every file of the job completes successfully a
separate completion write is emitted whose `downloaded` equals `total` — but
its percent is the clamp value 99, and no write (that completion write
included) ever carries percent 100, because `update_progress` applies
`min(99, …)` to all writes. -/
theorem download_progress_bounds_and_completion (cfg : DlConfig)
    (sizeOf : String → Nat) (snap : Except String String)
    (dl : String → Except String String) (fs : List String) (f : String)
    (hfiles : cfg.files = fs ++ [f])
    (hrid : cfg.repo_id.isSome = true)
    (hpf : cfg.progress_file.isSome = true)
    (hok : ∀ g ∈ cfg.files, (dl g).isOk = true)
    (htot : 0 < (cfg.files.map sizeOf).sum) :
    (∀ r ∈ (download_model cfg sizeOf snap dl).writes, r.progress ≤ 99) ∧
    (download_model cfg sizeOf snap dl).exit = none ∧
    (download_model cfg sizeOf snap dl).writes.getLast? =
      some { downloaded := (cfg.files.map sizeOf).sum,
             total := (cfg.files.map sizeOf).sum,
             progress := 99,
             current_file := "Completed " ++ f,
             speed := 0, eta := 0 } := by
  obtain ⟨rid, hrid'⟩ := Option.isSome_iff_exists.mp hrid
  have hemp : cfg.files.isEmpty = false := by simp [hfiles]
  have hok' : ∀ p ∈ (fs.map fun g => (g, sizeOf g)) ++ [(f, sizeOf f)],
      (dl p.1).isOk = true := by
    intro p hp
    rcases List.mem_append.mp hp with hp' | hp'
    · obtain ⟨g, hg, rfl⟩ := List.mem_map.mp hp'
      exact hok g (by rw [hfiles]; exact List.mem_append_left _ hg)
    · rcases List.mem_singleton.mp hp' with rfl
      exact hok f (by rw [hfiles]; simp)
  have hloop := downloadLoop_allOk_last dl f (sizeOf f)
    (fs.map fun g => (g, sizeOf g)) 0 ((cfg.files.map sizeOf).sum) 0
    cfg.files.length hok'
  have hmap : cfg.files.map (fun g => (g, sizeOf g)) =
      (fs.map fun g => (g, sizeOf g)) ++ [(f, sizeOf f)] := by
    rw [hfiles]; simp
  rw [← hmap] at hloop
  have hsum : ((cfg.files.map fun g => (g, sizeOf g)).map Prod.snd).sum =
      (cfg.files.map sizeOf).sum := by
    simp [List.map_map, Function.comp_def]
  rw [hsum] at hloop
  have hlast := hloop.2
  rw [Nat.zero_add] at hlast
  rw [progressRecordOf_complete _ htot] at hlast
  refine ⟨download_model_writes_progress_le cfg sizeOf snap dl, ?_, ?_⟩ <;>
    simp [download_model, hrid', hemp, hloop.1, hpf,
      getLast?_cons_of_some _ hlast]

/-- Counterexample for C2 as stated: a two-file job (100 MB + 50 MB) in which
every file completes successfully, yet no write — the completion write
included — ever reports percent 100; the final write reports 99. -/
theorem download_completion_percent_counterexample :
    (download_model cfgTwoFiles sizesTwoFiles (Except.ok "x") dlAllOk).exit = none ∧
    ((download_model cfgTwoFiles sizesTwoFiles (Except.ok "x") dlAllOk).writes.getLast?.map
      ProgressRecord.progress) = some 99 ∧
    ¬ ∃ r ∈ (download_model cfgTwoFiles sizesTwoFiles (Except.ok "x") dlAllOk).writes,
        r.progress = 100 := by
  refine ⟨by decide, by decide, ?_⟩
  decide

/-- Witness for C2 (amended): on the concrete two-file job the completion
write carries `downloaded = total = 157286400` and percent 99. -/
theorem download_progress_bounds_and_completion_witness :
    (download_model cfgTwoFiles sizesTwoFiles (Except.ok "x") dlAllOk).exit = none ∧
    (download_model cfgTwoFiles sizesTwoFiles (Except.ok "x") dlAllOk).writes.getLast? =
      some { downloaded := 157286400, total := 157286400, progress := 99,
             current_file := "Completed " ++ "b.bin", speed := 0, eta := 0 } := by
  have h := download_progress_bounds_and_completion cfgTwoFiles sizesTwoFiles
    (Except.ok "x") dlAllOk ["a.bin"] "b.bin" (by decide) (by decide) (by decide)
    (by decide) (by decide)
  exact ⟨h.2.1, h.2.2⟩

/-- Every record emitted by the cumulative monitor reports
`bytes_before + observed` as `downloaded` (heartbeats observe 0) and, when the
job total is positive, the job total as `total`. -/
theorem monitor_cumulative_mem (B T : Nat) (fn : String) (fnum tf : Nat) :
    ∀ (polls : List Poll) (st : MonState) (o : Nat) (r : ProgressRecord),
      (o, r) ∈ monitor_file_size_cumulative B T fn fnum tf st polls →
      r.downloaded = B + o ∧ (0 < T → r.total = T) := by
  intro polls
  induction polls with
  | nil => intro st o r h; cases h
  | cons p ps ih =>
    intro st o r h
    simp only [monitor_file_size_cumulative] at h
    split_ifs at h <;>
      first
        | exact ih _ o r h
        | rcases List.mem_cons.mp h with ⟨rfl, rfl⟩ | hmem <;>
            first
              | exact ih _ o r hmem
              | exact ⟨by simp [progressRecordOf],
                  fun hT => by simp [progressRecordOf, hT]⟩

/-- C3: for a three-file job with queried sizes `[s1, s2, s3]` and positive
total, (a) while file `k+1` transfers, every record the cumulative monitor
emits reports `downloaded = s1 + … + sk + observed` (where `observed` is the
currently observed size of file `k+1`, 0 for a heartbeat) and
`total = s1 + s2 + s3`; and (b) the orchestrator hands the monitor exactly
those byte baselines: its own per-file writes carry the partial sums
`0, s1, s1, s1+s2, s1+s2, s1+s2+s3` against the job total. -/
theorem cumulative_accounting (s1 s2 s3 : Nat) (htot : 0 < s1 + s2 + s3)
    (fn f1 f2 f3 p1 p2 p3 : String) (dl : String → Except String String)
    (hd1 : dl f1 = Except.ok p1) (hd2 : dl f2 = Except.ok p2)
    (hd3 : dl f3 = Except.ok p3)
    (k : Nat) (hk : k < 3) (st : MonState) (polls : List Poll) :
    (∀ (o : Nat) (r : ProgressRecord),
      (o, r) ∈ monitor_file_size_cumulative (([s1, s2, s3].take k).sum)
        (s1 + s2 + s3) fn (k + 1) 3 st polls →
      r.downloaded = ([s1, s2, s3].take k).sum + o ∧ r.total = s1 + s2 + s3) ∧
    (downloadLoop dl [(f1, s1), (f2, s2), (f3, s3)] 0 (s1 + s2 + s3) 0
        3).writes.map (fun r => (r.downloaded, r.total)) =
      [(0, s1 + s2 + s3), (s1, s1 + s2 + s3), (s1, s1 + s2 + s3),
       (s1 + s2, s1 + s2 + s3), (s1 + s2, s1 + s2 + s3),
       (s1 + s2 + s3, s1 + s2 + s3)] := by
  constructor
  · intro o r hmem
    have h := monitor_cumulative_mem (([s1, s2, s3].take k).sum) (s1 + s2 + s3)
      fn (k + 1) 3 polls st o r hmem
    exact ⟨h.1, h.2 htot⟩
  · simp [downloadLoop, hd1, hd2, hd3, progressRecordOf, htot, Nat.add_assoc]
    omega

/-- Witness for C3: sizes 100/50/25, file 2 transferring with 20 bytes
observed at a poll 4 seconds in — the emitted record carries
`downloaded = 100 + 20` and `total = 175`. -/
theorem cumulative_accounting_witness :
    (progressRecordOf 120 175 "m (2/3)" 5 11).downloaded =
        ([100, 50, 25].take 1).sum + 20 ∧
    (progressRecordOf 120 175 "m (2/3)" 5 11).total = 100 + 50 + 25 :=
  (cumulative_accounting 100 50 25 (by decide) "m" "a" "b" "c" "a" "b" "c"
    (fun f => Except.ok f) rfl rfl rfl 1 (by decide) ⟨0, 0⟩ [⟨4, 20⟩]).1
    20 (progressRecordOf 120 175 "m (2/3)" 5 11) (by decide)

/-- Every record emitted by the single-file monitor has percent at most 99
(all its writes go through the `min(99, …)` clamp of `update_progress`). -/
theorem monitor_file_size_progress_le (S : Nat) (fn : String) :
    ∀ (polls : List Poll) (st : MonState) (r : ProgressRecord),
      r ∈ monitor_file_size S fn st polls → r.progress ≤ 99 := by
  intro polls
  induction polls with
  | nil => intro st r h; cases h
  | cons p ps ih =>
    intro st r h
    simp only [monitor_file_size] at h
    split_ifs at h <;>
      first
        | exact ih _ r h
        | rcases List.mem_cons.mp h with rfl | hmem <;>
            first
              | exact ih _ r hmem
              | exact progressRecordOf_progress_le ..

/-- Invariant of the single-file monitoring loop: if the observed sizes are
non-decreasing (the file only grows) and bounded by `S`, then starting from
internal state `st` the emitted `downloaded` values continue non-decreasingly
from `st.last_size` and stay bounded by `S`. -/
theorem monitor_file_size_invariant (S : Nat) (fn : String) :
    ∀ (polls : List Poll) (st : MonState),
      (∀ p ∈ polls, p.obs ≤ S) →
      List.Pairwise (fun a b : Poll => a.obs ≤ b.obs) polls →
      (∀ p ∈ polls, st.last_size ≤ p.obs) →
      List.Chain' (· ≤ ·)
        (st.last_size ::
          (monitor_file_size S fn st polls).map ProgressRecord.downloaded) ∧
      ∀ r ∈ monitor_file_size S fn st polls, r.downloaded ≤ S := by
  intro polls
  induction polls with
  | nil =>
    intro st _ _ _
    exact ⟨List.chain'_singleton _, fun r hr => absurd hr (List.not_mem_nil r)⟩
  | cons p ps ih =>
    intro st hle hpair hA
    obtain ⟨hhead, htail⟩ := List.pairwise_cons.mp hpair
    have hle' : ∀ q ∈ ps, q.obs ≤ S := fun q hq => hle q (List.mem_cons_of_mem _ hq)
    simp only [monitor_file_size]
    by_cases h1 : 0 < p.obs
    · by_cases h2 : st.last_size < p.obs
      · -- a strictly larger size was observed: emit it
        rw [if_pos h1, if_pos h2]
        have hIH := ih ⟨p.obs, p.now⟩ hle' htail fun q hq => hhead q hq
        refine ⟨?_, ?_⟩
        · rw [List.map_cons]
          exact List.chain'_cons.mpr ⟨Nat.le_of_lt h2, hIH.1⟩
        · intro r hr
          rcases List.mem_cons.mp hr with rfl | hmem
          · exact hle p (List.mem_cons_self p ps)
          · exact hIH.2 r hmem
      · -- observed but not larger: no emission, state unchanged
        rw [if_pos h1, if_neg h2]
        exact ih st hle' htail fun q hq => hA q (List.mem_cons_of_mem _ hq)
    · by_cases h2 : 2 < p.now - st.last_update_time
      · -- nothing observed: heartbeat with downloaded = 0
        rw [if_neg h1, if_pos h2]
        have hz : st.last_size = 0 := by
          have h := hA p (List.mem_cons_self p ps)
          omega
        rw [hz]
        have hIH := ih ⟨0, p.now⟩ hle' htail fun q hq => Nat.zero_le _
        refine ⟨?_, ?_⟩
        · rw [List.map_cons]
          exact List.chain'_cons.mpr ⟨Nat.le_refl 0, hIH.1⟩
        · intro r hr
          rcases List.mem_cons.mp hr with rfl | hmem
          · exact Nat.zero_le S
          · exact hIH.2 r hmem
      · -- nothing observed, heartbeat interval not yet elapsed
        rw [if_neg h1, if_neg h2]
        exact ih st hle' htail fun q hq => hA q (List.mem_cons_of_mem _ hq)

/-- C6: for a single file of known size `S` whose transfer only grows the
observed file (non-decreasing observations bounded by `S`), the sequence of
`downloaded` values the monitoring loop emits is non-decreasing and never
exceeds `S`, and no emitted record ever reaches percent 100 (so percent
cannot reach 100 before the external operation returns). -/
theorem monitor_file_size_monotone (S : Nat) (fn : String) (t0 : Nat)
    (polls : List Poll)
    (hle : ∀ p ∈ polls, p.obs ≤ S)
    (hmono : List.Pairwise (fun a b : Poll => a.obs ≤ b.obs) polls) :
    List.Chain' (· ≤ ·)
      ((monitor_file_size S fn ⟨0, t0⟩ polls).map ProgressRecord.downloaded) ∧
    (∀ r ∈ monitor_file_size S fn ⟨0, t0⟩ polls, r.downloaded ≤ S) ∧
    (∀ r ∈ monitor_file_size S fn ⟨0, t0⟩ polls, r.progress ≤ 99) := by
  have h := monitor_file_size_invariant S fn polls ⟨0, t0⟩ hle hmono
    fun p _ => Nat.zero_le _
  exact ⟨h.1.tail, h.2, fun r hr => monitor_file_size_progress_le S fn polls _ r hr⟩

/-- Witness for C6: a growing 100-byte file observed at sizes 0, 10, 50, 50,
100 yields non-decreasing emissions bounded by 100 with percent at most 99. -/
theorem monitor_file_size_monotone_witness :
    List.Chain' (· ≤ ·)
      ((monitor_file_size 100 "f.bin" ⟨0, 0⟩
        [⟨3, 0⟩, ⟨4, 10⟩, ⟨5, 50⟩, ⟨6, 50⟩, ⟨7, 100⟩]).map
          ProgressRecord.downloaded) ∧
    (∀ r ∈ monitor_file_size 100 "f.bin" ⟨0, 0⟩
        [⟨3, 0⟩, ⟨4, 10⟩, ⟨5, 50⟩, ⟨6, 50⟩, ⟨7, 100⟩], r.downloaded ≤ 100) ∧
    (∀ r ∈ monitor_file_size 100 "f.bin" ⟨0, 0⟩
        [⟨3, 0⟩, ⟨4, 10⟩, ⟨5, 50⟩, ⟨6, 50⟩, ⟨7, 100⟩], r.progress ≤ 99) :=
  monitor_file_size_monotone 100 "f.bin" 0
    [⟨3, 0⟩, ⟨4, 10⟩, ⟨5, 50⟩, ⟨6, 50⟩, ⟨7, 100⟩] (by decide) (by decide)

end DatasetManager
